import Mathlib

/-!
EMV transaction engine of `nfcdemo` (package `emv`)

A shallow embedding of `src/emv/emv.go`: `encodeBCD`, `CreateGPOCommand`,
`ParseRecord`, `ReadRecords` and `ProcessTarget`, followed by theorems about them.

Conventions of the embedding
* a Go `byte`/`uint8` is a `Nat`, every arithmetic result on it is reduced `% 256`;
* a Go function returning `(*T, error)` returns `Res T`: `ok v` is `(v, nil)`,
  `err e` is `(nil, e)` and `crash m` is a run-time panic with message `m`;
* loops whose termination is not structural carry a `fuel` argument and return
  `none` when the fuel is used up;
* the card behind the `apduSender` interface is a state machine; every function that
  calls `Send` threads the sender state and the list of commands sent so far.
-/

namespace Emv

/-! ## Go values -/

/-- Go `error` values that the package creates or compares. Sentinels are compared by
identity in Go, which is constructor equality here; `wrap` is `errors.Wrap(cause, msg)`
with a non-nil cause, a fresh value that is never identical to a sentinel. -/
inductive GoError where
  | ErrNotFound
  | EOF
  | sentinel (msg : String)
  | errorf (msg : String)
  | wrap (cause : GoError) (msg : String)
  | transport (code : Nat)
deriving DecidableEq, Repr

/-- Outcome of a Go call of result type `(*T, error)`. -/
inductive Res (α : Type) where
  | ok (v : α)
  | err (e : GoError)
  | crash (msg : String)
deriving DecidableEq, Repr

/-- The struct `bertlv.TagValue`. -/
structure TagValue where
  T : Nat
  V : List Nat
deriving DecidableEq, Repr

/-- The fields of `apdu.APDU` that the package sets. -/
structure APDU where
  Cla : Nat := 0
  Ins : Nat := 0
  P1 : Nat := 0
  P2 : Nat := 0
  Data : List Nat := []
deriving DecidableEq, Repr

/-- The struct `Card`; the Go field `Type` is `Typ` here. A Go string is a sequence of
bytes: `Typ` holds the bytes of the string, `PAN` is the text of hexadecimal digits. -/
structure Card where
  Typ : List Nat := []
  PAN : String := ""
  ExpYear : Nat := 0
  ExpMonth : Nat := 0
deriving DecidableEq, Repr

/-- The struct `TerminalConfig` (a `uint32` and two `uint16`). -/
structure TerminalConfig where
  TerminalTransactionQualifiers : Nat
  TransactionCurrencyCode : Nat
  TerminalCountryCode : Nat
deriving DecidableEq, Repr

def TagApplicationID : Nat := 0x4F
def TagApplicationLabel : Nat := 0x50
def TagProcessingOptionsDataObjectList : Nat := 0x9f38
def TagApplicationFileLocator : Nat := 0x94
def TagApplicationExpirationDate : Nat := 0x5F24
def TagApplicationPrimaryAccountNumber : Nat := 0x5a
def TagTerminalTransactionQualifiers : Nat := 0x9f66
def TagAmountAuthorized : Nat := 0x9f02
def TagUnpredictableNumber : Nat := 0x9f37
def TagTransactionCurrencyCode : Nat := 0x5f2a
def TagTerminalCountryCode : Nat := 0x9f1a
def TagCommandTemplate : Nat := 0x83

/-- The package variable `errNoPAN = errors.New("PAN not found")`. -/
def errNoPAN : GoError := .sentinel "PAN not found"

/-! ## Library functions used by the package -/

/-- Go `hex.EncodeToString`: the digit for a nibble, from the table `0123456789abcdef`. -/
def hexDigit (n : Nat) : Char :=
  "0123456789abcdef".toList.getD n '0'

/-- Go `hex.EncodeToString`: two lowercase digits per byte, high nibble first. -/
def EncodeToString (src : List Nat) : String :=
  String.mk (src.foldr (fun v acc => hexDigit (v >>> 4) :: hexDigit (v &&& 0x0f) :: acc) [])

/-- Go `binary.BigEndian.PutUint32(b, v)`: the bounds check `_ = b[3]` panics on a
slice shorter than four bytes, otherwise the first four bytes are overwritten. -/
def PutUint32 (b : List Nat) (v : Nat) : Res (List Nat) :=
  if b.length < 4 then
    .crash "index out of range [3]"
  else
    .ok ((((b.set 0 ((v >>> 24) % 256)).set 1 ((v >>> 16) % 256)).set 2
      ((v >>> 8) % 256)).set 3 (v % 256))

/-! ## encodeBCD -/

/-- The loop of `encodeBCD`; `k` is `i + 1` for the Go index `i`, so `i >= 0` is
`k > 0`. `tail`, `hi` and `lo` are bytes. -/
def encodeBCDLoop : Nat → List Nat → Nat → List Nat
  | 0, p, _ => p
  | k + 1, p, rem =>
    if rem > 0 then
      let tail := (rem % 100) % 256
      let hi := tail / 10
      let lo := tail % 10
      encodeBCDLoop k (p.set k ((((hi <<< 4) % 256) + lo) % 256)) (rem / 100)
    else p

/-- The function `encodeBCD(p []byte, u uint64)`; the result is the final content
of `p`. -/
def encodeBCD (p : List Nat) (u : Nat) : List Nat :=
  if u = 0 then p else encodeBCDLoop p.length p u

/-- The value of one BCD byte: high nibble times ten plus low nibble. -/
def bcdValue (b : Nat) : Nat := (b >>> 4) * 10 + (b &&& 0x0f)

/-- BCD decoding as the specification words it: the sum over the bytes of the byte
value times `100 ^ (n - 1 - i)`, most significant byte first. -/
def decodeBCD : List Nat → Nat
  | [] => 0
  | b :: bs => bcdValue b * 100 ^ bs.length + decodeBCD bs

/-! ## The packages `bertlv` and `apdu`

The two packages are dependencies of the repository; their sources are not part of
it. `Find` and `Select` are parameters of the functions below. The byte-level
readers and writers that `CreateGPOCommand` and the test need are modelled from the
specification (sections 4.1 and 4.2). -/

/-- Modelled from the spec: the continuation bytes of a multi-byte tag in
`bertlv.ReadTag` (section 4.1, tag decoding): the tag continues while the high bit of
the byte just read is set; the bytes form a big-endian number. The reader running
dry inside a tag gives `io.EOF`. -/
def readTagCont : List Nat → Nat → Nat → Nat × Nat × Option GoError × List Nat
  | [], tag, n => (tag, n, some .EOF, [])
  | b :: r, tag, n =>
    if b &&& 0x80 ≠ 0 then readTagCont r (tag * 256 + b) (n + 1)
    else (tag * 256 + b, n + 1, none, r)

/-- Modelled from the spec: `bertlv.ReadTag(r)` returning `(tag, n, err)` and the
rest of the reader (section 4.1, tag decoding): a first byte whose low five bits are
`0x1F` opens a multi-byte tag, any other first byte is the tag. An empty reader gives
`n = 0` and `io.EOF`. -/
def ReadTag : List Nat → Nat × Nat × Option GoError × List Nat
  | [] => (0, 0, some .EOF, [])
  | b :: r => if b &&& 0x1F = 0x1F then readTagCont r b 1 else (b, 1, none, r)

/-- The big-endian number written by a list of bytes. -/
def bigEndian (bs : List Nat) : Nat :=
  bs.foldl (fun acc b => acc * 256 + b) 0

/-- Modelled from the spec: `bertlv.ReadLen(r)` returning `(length, n, err)` and the
rest of the reader (section 4.1, length decoding): short form when the high bit is
clear, otherwise the low seven bits count the bytes of a big-endian length. A reader
that ends early gives `io.EOF`. -/
def ReadLen : List Nat → Nat × Nat × Option GoError × List Nat
  | [] => (0, 0, some .EOF, [])
  | b :: r =>
    if b &&& 0x80 = 0 then (b, 1, none, r)
    else
      let k := b &&& 0x7F
      if r.length < k then (0, 1 + r.length, some .EOF, [])
      else (bigEndian (r.take k), 1 + k, none, r.drop k)

/-- The minimal big-endian bytes of a positive number (no bytes for zero); the fuel
bounds the number of bytes. -/
def beBytes : Nat → Nat → List Nat
  | 0, _ => []
  | fuel + 1, n => if n = 0 then [] else beBytes fuel (n / 256) ++ [n % 256]

/-- Modelled from the spec: the tag bytes written by `bertlv.TagValue.Bytes`
(section 4.1, `encode`). -/
def tagBytes (t : Nat) : List Nat :=
  if t < 256 then [t] else beBytes 8 t

/-- Modelled from the spec: the length bytes written by `bertlv.TagValue.Bytes`
(section 4.1, `encode`), in the minimal short or long form. -/
def lenBytes (l : Nat) : List Nat :=
  if l < 128 then [l] else
    let bs := beBytes 8 l
    (0x80 ||| bs.length) :: bs

/-- Modelled from the spec: `bertlv.TagValue.Bytes` (section 4.1, `encode`): tag
bytes, length bytes, value bytes. -/
def TagValue.Bytes (tv : TagValue) : List Nat :=
  tagBytes tv.T ++ lenBytes tv.V.length ++ tv.V

/-- Modelled from the spec: `apdu.APDU.Bytes` (sections 3 and 4.2): the four header
bytes, then `Lc` and the data when the data is not empty, then `Le = 0x00`. -/
def APDU.Bytes (a : APDU) : List Nat :=
  [a.Cla, a.Ins, a.P1, a.P2] ++
    (if a.Data = [] then [] else (a.Data.length % 256) :: a.Data) ++ [0x00]

/-- Modelled from the spec: `apdu.APDU.String`, the lowercase hexadecimal text of the
serialised command that the test searches. -/
def APDU.String (a : APDU) : String :=
  EncodeToString a.Bytes

/-- Modelled from the spec: `bertlv.Find` (section 4.1): a depth-first search that
returns the first record with the tag; the value of a constructed record (bit `0x20`
of the first tag byte) is searched before the next sibling. `fuel` bounds the number
of records visited. -/
def findFuel (tag : Nat) : Nat → List Nat → Except GoError TagValue
  | 0, _ => .error .ErrNotFound
  | fuel + 1, bs =>
    match bs with
    | [] => .error .ErrNotFound
    | b0 :: _ =>
      match ReadTag bs with
      | (_, _, some e, _) => .error e
      | (t, _, none, r1) =>
        match ReadLen r1 with
        | (_, _, some e, _) => .error e
        | (l, _, none, r2) =>
          if r2.length < l then .error .EOF
          else if t = tag then .ok { T := t, V := r2.take l }
          else if b0 &&& 0x20 ≠ 0 then
            match findFuel tag fuel (r2.take l) with
            | .ok tv => .ok tv
            | .error e =>
              if e = .ErrNotFound then findFuel tag fuel (r2.drop l) else .error e
          else findFuel tag fuel (r2.drop l)

/-- Modelled from the spec: `bertlv.Find(tag, bs)` with enough fuel for any buffer. -/
def specFind (tag : Nat) (bs : List Nat) : Except GoError TagValue :=
  findFuel tag (bs.length + 1) bs

/-- Modelled from the spec: `apdu.Select(data)`, the SELECT command of ISO 7816
(class `0x00`, instruction `0xA4`, `P1 = 0x04`) carrying `data`. -/
def specSelect (data : List Nat) : APDU :=
  { Cla := 0x00, Ins := 0xa4, P1 := 0x04, P2 := 0x00, Data := data }

/-- The interface `apduSender`: the card is a state machine, `Send` maps a state and a
command to the Go result `([]byte, error)` and the next state. -/
structure apduSender (σ : Type) where
  Send : σ → APDU → Except GoError (List Nat) × σ

/-! ## ParseRecord and ReadRecords -/

/-- The function `ParseRecord(record)`. Indexing `expDate.V[0]` and `expDate.V[1]`
panics when the value is too short; the two assignments are `uint8` arithmetic, where
`>>` and `*` have the same precedence and associate to the left. -/
def ParseRecord (Find : Nat → List Nat → Except GoError TagValue) (record : List Nat) :
    Res Card :=
  match Find TagApplicationPrimaryAccountNumber record with
  | .error e => .err e
  | .ok pan =>
    match Find TagApplicationExpirationDate record with
    | .error e => .err (.wrap e "failed to find expiration date")
    | .ok expDate =>
      match expDate.V with
      | [] => .crash "index out of range [0] with length 0"
      | [_] => .crash "index out of range [1] with length 1"
      | v0 :: v1 :: _ =>
        .ok { PAN := EncodeToString pan.V
              ExpYear := ((((v0 >>> 4) * 10) % 256) + (v0 &&& 0xf)) % 256
              ExpMonth := ((((v1 >>> 4) * 10) % 256) + (v1 &&& 0xf)) % 256 }

/-- How a loop over the records of one AFL group ends: `next` when the loop condition
fails, `ret` when a `return` statement runs. Both carry the sender state and the
commands sent so far. -/
inductive Flow (σ : Type) where
  | next (s : σ) (sent : List APDU)
  | ret (r : Res Card) (s : σ) (sent : List APDU)

/-- The inner loop of `ReadRecords`, `for rec := firstRec; rec <= lastRec; rec++`,
with `rec` a `uint8`: the increment wraps at 256. One unit of fuel per evaluation of
the loop condition. -/
def readGroup {σ : Type} (sender : apduSender σ)
    (Find : Nat → List Nat → Except GoError TagValue) (sfi lastRec : Nat) :
    Nat → σ → List APDU → Nat → Option (Flow σ)
  | 0, _, _, _ => none
  | fuel + 1, s, sent, rec =>
    if rec ≤ lastRec then
      let apduReadRecord : APDU := { Ins := 0xb2, P1 := rec, P2 := sfi }
      match sender.Send s apduReadRecord with
      | (.error e, s1) =>
        some (.ret (.err (.wrap e "failed to send ReadRecord command")) s1
          (sent ++ [apduReadRecord]))
      | (.ok rx, s1) =>
        match ParseRecord Find rx with
        | .err e =>
          if e = .ErrNotFound then
            readGroup sender Find sfi lastRec fuel s1 (sent ++ [apduReadRecord])
              ((rec + 1) % 256)
          else
            some (.ret (.err (.wrap e "failed to parse record")) s1
              (sent ++ [apduReadRecord]))
        | .ok card => some (.ret (.ok card) s1 (sent ++ [apduReadRecord]))
        | .crash m => some (.ret (.crash m) s1 (sent ++ [apduReadRecord]))
    else some (.next s sent)

/-- The outer loop of `ReadRecords`, `for i := 0; i < len(afl)/4; i++` over the
chunks `afl[i*4 : (i+1)*4]`: the bytes are taken four at a time and fewer than four
remaining bytes end the loop. Each group gets `fuel` units. -/
def readGroups {σ : Type} (sender : apduSender σ)
    (Find : Nat → List Nat → Except GoError TagValue) (fuel : Nat) :
    σ → List APDU → List Nat → Option (Res Card × σ × List APDU)
  | s, sent, c0 :: c1 :: c2 :: _ :: rest =>
    let sfi := ((c0 &&& 0xF8) ||| 0x04) % 256
    match readGroup sender Find sfi c2 fuel s sent c1 with
    | none => none
    | some (.ret r s1 sent1) => some (r, s1, sent1)
    | some (.next s1 sent1) => readGroups sender Find fuel s1 sent1 rest
  | s, sent, _ => some (.err errNoPAN, s, sent)

/-- The function `ReadRecords(sender, afl)`: the result, the final state of the
sender and the commands sent, or `none` when a record loop used up its fuel. -/
def ReadRecords {σ : Type} (sender : apduSender σ)
    (Find : Nat → List Nat → Except GoError TagValue) (fuel : Nat) (s : σ)
    (afl : List Nat) : Option (Res Card × σ × List APDU) :=
  readGroups sender Find fuel s [] afl

/-! ## CreateGPOCommand -/

/-- The `switch tag` of `CreateGPOCommand` on the zero-filled slice `d`: the filled
slice and the number of calls of `rand.Uint32` made so far. `rand k` is the value of
the call number `k`. -/
def fillEntry (termConfig : TerminalConfig) (rand : Nat → Nat) (tag : Nat) (d : List Nat)
    (calls : Nat) : Res (List Nat) × Nat :=
  if tag = TagTerminalTransactionQualifiers then
    (PutUint32 d (termConfig.TerminalTransactionQualifiers % 2 ^ 32), calls)
  else if tag = TagAmountAuthorized then
    (.ok (encodeBCD d 1000), calls)
  else if tag = TagUnpredictableNumber then
    (.ok (encodeBCD d (rand calls % 2 ^ 32)), calls + 1)
  else if tag = TagTransactionCurrencyCode then
    (.ok (encodeBCD d (termConfig.TransactionCurrencyCode % 2 ^ 16)), calls)
  else if tag = TagTerminalCountryCode then
    (.ok (encodeBCD d (termConfig.TerminalCountryCode % 2 ^ 16)), calls)
  else
    (.ok d, calls)

/-- The `for` loop of `CreateGPOCommand` over the reader `r`; `data` is the slice
built so far. One unit of fuel per iteration. -/
def gpoLoop (termConfig : TerminalConfig) (rand : Nat → Nat) :
    Nat → List Nat → Nat → List Nat → Option (Res (List Nat))
  | 0, _, _, _ => none
  | fuel + 1, r, calls, data =>
    match ReadTag r with
    | (tag, n, err, r1) =>
      if err = some .EOF ∨ n = 0 then some (.ok data)
      else
        match err with
        | some e => some (.err e)
        | none =>
          match ReadLen r1 with
          | (_, _, some e, _) => some (.err e)
          | (l, _, none, r2) =>
            match fillEntry termConfig rand tag (List.replicate l 0) calls with
            | (.ok d, calls1) => gpoLoop termConfig rand fuel r2 calls1 (data ++ d)
            | (.err e, _) => some (.err e)
            | (.crash m, _) => some (.crash m)

/-- The function `CreateGPOCommand(pdol, termConfig)`; `pdol = none` is the nil
pointer. Every iteration of the loop that does not leave it reads at least one byte,
so `len(pdol.V) + 1` units of fuel are never used up. -/
def CreateGPOCommand (pdol : Option TagValue) (termConfig : TerminalConfig)
    (rand : Nat → Nat) : Option (Res APDU) :=
  match pdol with
  | none => some (.ok { Cla := 0x80, Ins := 0xa8, Data := [0x83, 0x00] })
  | some tv =>
    match gpoLoop termConfig rand (tv.V.length + 1) tv.V 0 [] with
    | none => none
    | some (.ok data) =>
      some (.ok { Cla := 0x80, Ins := 0xa8
                  Data := TagValue.Bytes { T := TagCommandTemplate, V := data } })
    | some (.err e) => some (.err e)
    | some (.crash m) => some (.crash m)

/-! ## ProcessTarget -/

/-- The package variable `apduGetApplicationList`, `Select` of `2PAY.SYS.DDF01`. -/
def apduGetApplicationList (Select : List Nat → APDU) : APDU :=
  Select [0x32, 0x50, 0x41, 0x59, 0x2E, 0x53, 0x59, 0x53, 0x2E, 0x44, 0x44, 0x46, 0x30, 0x31]

/-- The test `err != nil && err != bertlv.ErrNotFound` on the result of the search for
the PDOL in `ProcessTarget`: an error other than the sentinel is returned, the
sentinel leaves `pdol` nil. -/
def pdolOf (found : Except GoError TagValue) : Except GoError (Option TagValue) :=
  match found with
  | .ok tv => .ok (some tv)
  | .error e => if e = .ErrNotFound then .ok none else .error e

/-- The function `ProcessTarget(sender, termConfig)`: the result, the final state of
the sender and the commands sent, or `none` when a loop used up its fuel. -/
def ProcessTarget {σ : Type} (sender : apduSender σ)
    (Find : Nat → List Nat → Except GoError TagValue) (Select : List Nat → APDU)
    (rand : Nat → Nat) (fuel : Nat) (termConfig : TerminalConfig) (s : σ) :
    Option (Res Card × σ × List APDU) :=
  let c1 := apduGetApplicationList Select
  match sender.Send s c1 with
  | (.error e, s1) => some (.err (.wrap e "failed to get application list"), s1, [c1])
  | (.ok rx1, s1) =>
    match Find TagApplicationID rx1 with
    | .error e => some (.err (.wrap e "failed to find AID"), s1, [c1])
    | .ok aid =>
      let c2 := Select aid.V
      match sender.Send s1 c2 with
      | (.error e, s2) => some (.err (.wrap e "failed to select AID"), s2, [c1, c2])
      | (.ok rx2, s2) =>
        match Find TagApplicationLabel rx2 with
        | .error e => some (.err (.wrap e "failed to find application label"), s2, [c1, c2])
        | .ok label =>
          match pdolOf (Find TagProcessingOptionsDataObjectList rx2) with
          | .error e => some (.err (.wrap e "failed to find PDOL"), s2, [c1, c2])
          | .ok pdol =>
            match CreateGPOCommand pdol termConfig rand with
            | none => none
            | some (.crash m) => some (.crash m, s2, [c1, c2])
            | some (.err e) =>
              some (.err (.wrap e "failed to create GPO command"), s2, [c1, c2])
            | some (.ok apduGPO) =>
              match sender.Send s2 apduGPO with
              | (.error e, s3) =>
                some (.err (.wrap e "failed to get processing options"), s3,
                  [c1, c2, apduGPO])
              | (.ok rx3, s3) =>
                match Find TagApplicationFileLocator rx3 with
                | .error e => some (.err (.wrap e "failed to find AFL"), s3, [c1, c2, apduGPO])
                | .ok afl =>
                  if afl.V.length % 4 ≠ 0 then
                    some (.err (.errorf "invalid AFL length"), s3, [c1, c2, apduGPO])
                  else
                    match ReadRecords sender Find fuel s3 afl.V with
                    | none => none
                    | some (.err e, s4, sent) =>
                      some (.err (.wrap e "failed to read records"), s4,
                        [c1, c2, apduGPO] ++ sent)
                    | some (.crash m, s4, sent) =>
                      some (.crash m, s4, [c1, c2, apduGPO] ++ sent)
                    | some (.ok card, s4, sent) =>
                      some (.ok { card with Typ := label.V },
                        s4, [c1, c2, apduGPO] ++ sent)

/-! ## Values of the test `TestCreateGPOCommand` -/

/-- The PDOL of `TestCreateGPOCommand`. -/
def testPDOL : TagValue :=
  { T := 0x9f38
    V := [0x9f, 0x66, 0x04, 0x9f, 0x02, 0x06, 0x9f, 0x37, 0x04, 0x5f, 0x2a, 0x02,
          0x9f, 0x1a, 0x02] }

/-- The terminal configuration of `TestCreateGPOCommand`. -/
def testConfig : TerminalConfig :=
  { TerminalTransactionQualifiers := 0xb620c000
    TransactionCurrencyCode := 933
    TerminalCountryCode := 112 }

/-! ## Well-formed PDOL values -/

/-- The bytes after the first of a multi-byte BER tag: every byte but the last has its
high bit set, the last has it clear. -/
def validTagCont : List Nat → Bool
  | [] => false
  | [b] => b &&& 0x80 = 0
  | b :: b1 :: rest => b &&& 0x80 ≠ 0 && validTagCont (b1 :: rest)

/-- The bytes of a BER tag (section 4.1): one byte whose low five bits are not all set,
or a first byte whose low five bits are all set followed by continuation bytes. -/
def validTag : List Nat → Bool
  | [] => false
  | [b] => b &&& 0x1F ≠ 0x1F
  | b :: b1 :: rest => b &&& 0x1F = 0x1F && validTagCont (b1 :: rest)

/-- A PDOL entry: the bytes of its tag and the requested length. -/
structure PdolEntry where
  tag : List Nat
  len : Nat

/-- The value of a PDOL: for each entry the tag bytes and the length in one byte. -/
def pdolBytes : List PdolEntry → List Nat
  | [] => []
  | e :: es => e.tag ++ e.len :: pdolBytes es

/-- What the specification asks of the byte group `g` produced for the entry `e`:
exactly the requested length, and zero bytes for a tag that is not recognised. -/
def groupFor (e : PdolEntry) (g : List Nat) : Prop :=
  g.length = e.len ∧
  (bigEndian e.tag ≠ TagTerminalTransactionQualifiers →
    bigEndian e.tag ≠ TagAmountAuthorized → bigEndian e.tag ≠ TagUnpredictableNumber →
    bigEndian e.tag ≠ TagTransactionCurrencyCode → bigEndian e.tag ≠ TagTerminalCountryCode →
    g = List.replicate e.len 0)

/-! ## The scan order of the specification -/

/-- The READ RECORD commands for `count` consecutive record numbers of one file,
starting at the record number `first`. -/
def recordCommands (sfi first count : Nat) : List APDU :=
  (List.range' first count).map fun rec => { Ins := 0xb2, P1 := rec, P2 := sfi }

/-- The commands of the specification for an AFL (section 4.3, step 5): for each
group of four bytes, READ RECORD for every record number from the first to the last
inclusive, with `P2 = (byte0 & 0xF8) | 0x04`. -/
def aflCommands : List Nat → List APDU
  | c0 :: c1 :: c2 :: _ :: rest =>
    recordCommands (((c0 &&& 0xF8) ||| 0x04) % 256) c1 (c2 + 1 - c1) ++ aflCommands rest
  | _ => []

/-- Every group of the AFL has a last record number below 255. -/
def lastBelow255 : List Nat → Prop
  | _ :: _ :: c2 :: _ :: rest => c2 < 255 ∧ lastBelow255 rest
  | _ => True

/-- The sender is sent the commands in order from the state `s`; the result is the
state reached when every answer succeeded and tag `0x5A` was found in none, `none`
otherwise. -/
def quietScan {σ : Type} (sender : apduSender σ)
    (Find : Nat → List Nat → Except GoError TagValue) : σ → List APDU → Option σ
  | s, [] => some s
  | s, c :: cs =>
    match sender.Send s c with
    | (.ok rx, s1) =>
      match Find TagApplicationPrimaryAccountNumber rx with
      | .error .ErrNotFound => quietScan sender Find s1 cs
      | _ => none
    | (.error _, _) => none

/-! ## Cards and records used as concrete inputs -/

/-- A record template (tag `0x70`) that holds the application currency code only. -/
def recordWithoutPAN : List Nat := [0x70, 0x05, 0x9f, 0x42, 0x02, 0x09, 0x78]

/-- A record template that holds the PAN `1234` and the expiration date `23 01`. -/
def recordWithPAN : List Nat :=
  [0x70, 0x09, 0x5a, 0x02, 0x12, 0x34, 0x5f, 0x24, 0x02, 0x23, 0x01]

/-- A card without state that answers every command with `recordWithoutPAN`. -/
def noPanCard : apduSender Unit :=
  { Send := fun s _ => (.ok recordWithoutPAN, s) }

/-- A card without state that keeps its PAN in the second file: a command with
`P2 = 0x14` is answered with `recordWithPAN`, any other with `recordWithoutPAN`. -/
def panInSecondFileCard : apduSender Unit :=
  { Send := fun s a => (if a.P2 = 0x14 then .ok recordWithPAN else .ok recordWithoutPAN, s) }

/-- A card without state whose record 2 holds a PAN and no expiration date: a command
with `P1 = 2` is answered with `5A 02 12 34`, any other with `recordWithoutPAN`. -/
def panOnlyRecordTwoCard : apduSender Unit :=
  { Send := fun s a => (if a.P1 = 2 then .ok [0x5a, 0x02, 0x12, 0x34]
                        else .ok recordWithoutPAN, s) }

/-- A card that counts the commands received: it answers the first with an
application identifier, the second with an application label and every later one
with an application file locator of three bytes. -/
def shortAflCard : apduSender Nat :=
  { Send := fun s _ =>
      (match s with
       | 0 => .ok [0x4F, 0x01, 0xA0]
       | 1 => .ok [0x50, 0x01, 0x41]
       | _ => .ok [0x94, 0x03, 0x08, 0x01, 0x01], s + 1) }

/-! # Theorems -/

/-! ## encodeBCD -/

/-- The byte that one iteration of `encodeBCD` stores for the two digits `t`: its
value is `t` and both nibbles are decimal digits. -/
theorem bcd_byte_facts : ∀ t, t < 100 →
    bcdValue (((((t % 256) / 10) <<< 4) % 256 + (t % 256) % 10) % 256) = t ∧
    (((((t % 256) / 10) <<< 4) % 256 + (t % 256) % 10) % 256) >>> 4 ≤ 9 ∧
    (((((t % 256) / 10) <<< 4) % 256 + (t % 256) % 10) % 256) &&& 0x0f ≤ 9 := by
  decide

theorem decodeBCD_zeros (k : Nat) (suf : List Nat) :
    decodeBCD (List.replicate k 0 ++ suf) = decodeBCD suf := by
  induction k with
  | zero => simp
  | succ k ih =>
    rw [List.replicate_succ, List.cons_append, decodeBCD, ih]
    simp [bcdValue]

theorem set_replicate_append (k : Nat) (b : Nat) (suf : List Nat) :
    (List.replicate (k + 1) 0 ++ suf).set k b = List.replicate k 0 ++ b :: suf := by
  induction k with
  | zero => simp
  | succ k ih =>
    rw [List.replicate_succ, List.cons_append, List.set_cons_succ, ih]
    simp [List.replicate_succ]

/-- The loop over the `k` leading zero bytes writes the low `2 * k` decimal digits of
`rem` in front of the bytes already written. -/
theorem encodeBCDLoop_decode (k : Nat) : ∀ (suf : List Nat) (rem : Nat),
    decodeBCD (encodeBCDLoop k (List.replicate k 0 ++ suf) rem)
      = (rem % 100 ^ k) * 100 ^ suf.length + decodeBCD suf := by
  induction k with
  | zero => intro suf rem; simp [encodeBCDLoop, Nat.mod_one]
  | succ k ih =>
    intro suf rem
    unfold encodeBCDLoop
    by_cases h : rem > 0
    · simp only [h, if_true]
      rw [set_replicate_append, ih]
      have hb := (bcd_byte_facts (rem % 100) (Nat.mod_lt _ (by norm_num))).1
      simp only [decodeBCD, hb, List.length_cons]
      have : rem % 100 ^ (k + 1) = (rem / 100 % 100 ^ k) * 100 + rem % 100 := by
        rw [pow_succ, mul_comm, Nat.mod_mul]
        ring
      rw [this]
      ring
    · have h0 : rem = 0 := by omega
      subst h0
      simp only [gt_iff_lt, lt_self_iff_false, if_false, Nat.zero_mod, zero_mul, zero_add]
      exact decodeBCD_zeros (k + 1) suf

theorem encodeBCDLoop_length (k : Nat) : ∀ (p : List Nat) (rem : Nat),
    (encodeBCDLoop k p rem).length = p.length := by
  induction k with
  | zero => intro p rem; simp [encodeBCDLoop]
  | succ k ih =>
    intro p rem
    unfold encodeBCDLoop
    split
    · rw [ih]; simp
    · rfl

theorem encodeBCD_length (p : List Nat) (u : Nat) : (encodeBCD p u).length = p.length := by
  unfold encodeBCD
  split
  · rfl
  · exact encodeBCDLoop_length _ _ _

theorem encodeBCDLoop_digits (k : Nat) : ∀ (p : List Nat) (rem : Nat),
    (∀ b ∈ p, b >>> 4 ≤ 9 ∧ b &&& 0x0f ≤ 9) →
    ∀ b ∈ encodeBCDLoop k p rem, b >>> 4 ≤ 9 ∧ b &&& 0x0f ≤ 9 := by
  induction k with
  | zero => intro p rem hp; simpa [encodeBCDLoop] using hp
  | succ k ih =>
    intro p rem hp
    unfold encodeBCDLoop
    split
    · apply ih
      intro b hb
      rcases List.mem_or_eq_of_mem_set hb with h | h
      · exact hp b h
      · subst h
        exact (bcd_byte_facts (rem % 100) (Nat.mod_lt _ (by norm_num))).2
    · exact hp

/-- On a zero-filled buffer of `n` bytes `encodeBCD` leaves the BCD digits of
`x % 100 ^ n`, whatever `x` is. -/
theorem encodeBCD_decode (n x : Nat) :
    decodeBCD (encodeBCD (List.replicate n 0) x) = x % 100 ^ n := by
  unfold encodeBCD
  split
  · next h => subst h; simpa using decodeBCD_zeros n []
  · have := encodeBCDLoop_decode n [] x
    simpa [decodeBCD] using this

theorem encodeBCD_digits (n x : Nat) :
    ∀ b ∈ encodeBCD (List.replicate n 0) x, b >>> 4 ≤ 9 ∧ b &&& 0x0f ≤ 9 := by
  unfold encodeBCD
  split
  · intro b hb
    rw [List.eq_of_mem_replicate hb]
    decide
  · apply encodeBCDLoop_digits
    intro b hb
    rw [List.eq_of_mem_replicate hb]
    decide

/-- C3. BCD round trip: for every width `n` and every `x` with `x ≤ 100 ^ n - 1`
(and `x` a `uint64`), `encodeBCD` on a zero-filled buffer of `n` bytes leaves `n`
bytes whose BCD decoding is `x`, every nibble being a decimal digit. -/
theorem encodeBCD_round_trip (n x : Nat) (hx : x ≤ 100 ^ n - 1) (_h64 : x < 2 ^ 64) :
    decodeBCD (encodeBCD (List.replicate n 0) x) = x ∧
    (encodeBCD (List.replicate n 0) x).length = n ∧
    ∀ b ∈ encodeBCD (List.replicate n 0) x, b >>> 4 ≤ 9 ∧ b &&& 0x0f ≤ 9 := by
  have hpos : 0 < 100 ^ n := Nat.pow_pos (by norm_num)
  refine ⟨?_, ?_, encodeBCD_digits n x⟩
  · rw [encodeBCD_decode, Nat.mod_eq_of_lt (by omega)]
  · rw [encodeBCD_length]; simp

/-- Witness of C3: the amount 1000 in a six-byte field. -/
theorem encodeBCD_round_trip_witness :
    decodeBCD (encodeBCD (List.replicate 6 0) 1000) = 1000 ∧
    (encodeBCD (List.replicate 6 0) 1000).length = 6 ∧
    ∀ b ∈ encodeBCD (List.replicate 6 0) 1000, b >>> 4 ≤ 9 ∧ b &&& 0x0f ≤ 9 :=
  encodeBCD_round_trip 6 1000 (by decide) (by decide)

/-! ## CreateGPOCommand -/

theorem EncodeToString_append (a b : List Nat) :
    EncodeToString (a ++ b) = EncodeToString a ++ EncodeToString b := by
  unfold EncodeToString
  induction a with
  | nil => rfl
  | cons x xs ih =>
    simp only [List.cons_append, List.foldr_cons]
    rw [String.ext_iff] at ih ⊢
    simp only [String.data_append] at ih ⊢
    simp [ih]

/-- One iteration of the loop of `CreateGPOCommand` that reads an entry and fills
its byte group. -/
theorem gpoLoop_step (cfg : TerminalConfig) (rand : Nat → Nat) (fuel : Nat)
    (r r1 r2 data d : List Nat) (tag n l m calls calls1 : Nat)
    (ht : ReadTag r = (tag, n, none, r1)) (hn : n ≠ 0)
    (hl : ReadLen r1 = (l, m, none, r2))
    (hf : fillEntry cfg rand tag (List.replicate l 0) calls = (.ok d, calls1)) :
    gpoLoop cfg rand (fuel + 1) r calls data = gpoLoop cfg rand fuel r2 calls1 (data ++ d) := by
  simp only [gpoLoop, ht, hl, hf]
  simp [hn]

/-- One iteration of the loop of `CreateGPOCommand` in which filling the byte group
panics. -/
theorem gpoLoop_crash (cfg : TerminalConfig) (rand : Nat → Nat) (fuel : Nat)
    (r r1 r2 data : List Nat) (tag n l m calls calls1 : Nat) (msg : String)
    (ht : ReadTag r = (tag, n, none, r1)) (hn : n ≠ 0)
    (hl : ReadLen r1 = (l, m, none, r2))
    (hf : fillEntry cfg rand tag (List.replicate l 0) calls = (.crash msg, calls1)) :
    gpoLoop cfg rand (fuel + 1) r calls data = some (.crash msg) := by
  simp only [gpoLoop, ht, hl, hf]
  simp [hn]

theorem gpoLoop_done (cfg : TerminalConfig) (rand : Nat → Nat) (fuel : Nat)
    (calls : Nat) (data : List Nat) :
    gpoLoop cfg rand (fuel + 1) [] calls data = some (.ok data) := by
  simp [gpoLoop, ReadTag]

theorem gpo_example (rand : Nat → Nat) :
    CreateGPOCommand (some testPDOL) testConfig rand
      = some (.ok { Cla := 0x80, Ins := 0xa8, P1 := 0, P2 := 0,
                    Data := [0x83, 0x12, 0xB6, 0x20, 0xC0, 0x00, 0x00, 0x00, 0x00, 0x00,
                             0x10, 0x00]
                      ++ encodeBCD [0, 0, 0, 0] (rand 0 % 2 ^ 32)
                      ++ [0x09, 0x33, 0x01, 0x12] }) := by
  unfold CreateGPOCommand testPDOL testConfig
  simp only [List.length_cons, List.length_nil]
  rw [gpoLoop_step _ _ _ _ _ _ _ _ _ _ _ _ _ _ (by rfl) (by decide) (by rfl) (by rfl)]
  rw [gpoLoop_step _ _ _ _ _ _ _ _ _ _ _ _ _ _ (by rfl) (by decide) (by rfl) (by rfl)]
  rw [gpoLoop_step _ _ _ _ _ _ _ _ _ _ _ _ _ _ (by rfl) (by decide) (by rfl) (by rfl)]
  rw [gpoLoop_step _ _ _ _ _ _ _ _ _ _ _ _ _ _ (by rfl) (by decide) (by rfl) (by rfl)]
  rw [gpoLoop_step _ _ _ _ _ _ _ _ _ _ _ _ _ _ (by rfl) (by decide) (by rfl) (by rfl)]
  rw [gpoLoop_done]
  have e1 : encodeBCD [0, 0, 0, 0, 0, 0] 1000 = [0, 0, 0, 0, 0x10, 0] := by decide
  have e2 : encodeBCD [0, 0] 933 = [0x09, 0x33] := by decide
  have e3 : encodeBCD [0, 0] 112 = [0x01, 0x12] := by decide
  simp [TagValue.Bytes, tagBytes, lenBytes, TagCommandTemplate, encodeBCD_length, e1, e2, e3]

theorem gpo_example_string (U : List Nat) (hU : U.length = 4) :
    APDU.String { Cla := 0x80, Ins := 0xa8, P1 := 0, P2 := 0,
                  Data := [0x83, 0x12, 0xB6, 0x20, 0xC0, 0x00, 0x00, 0x00, 0x00, 0x00,
                           0x10, 0x00] ++ U ++ [0x09, 0x33, 0x01, 0x12] }
      = "80a80000148312b620c000000000001000" ++ EncodeToString U ++ "0933011200" := by
  have h1 : EncodeToString [0x80, 0xa8, 0, 0, 0x14, 0x83, 0x12, 0xB6, 0x20, 0xC0, 0x00,
      0x00, 0x00, 0x00, 0x00, 0x10, 0x00] = "80a80000148312b620c000000000001000" := by
    decide
  have h2 : EncodeToString [0x09, 0x33, 0x01, 0x12, 0x00] = "0933011200" := by decide
  rw [← h1, ← h2, ← EncodeToString_append, ← EncodeToString_append]
  simp [APDU.String, APDU.Bytes, hU]

/-- C1. For the PDOL and the terminal configuration of the test and every value of
the random source, `CreateGPOCommand` returns without error the command with class
`0x80`, instruction `0xA8`, `P1 = P2 = 0` and the twenty data bytes
`83 12 B6 20 C0 00 00 00 00 00 10 00 U1 U2 U3 U4 09 33 01 12`, where the four bytes
`U` are the BCD bytes of the 32-bit random value and nothing else depends on it. The
serialised command is header, `Lc = 0x14`, data, `Le = 0x00`, and its hexadecimal text
contains `80a80000148312b620c000000000001000` and `0933011200`. -/
theorem CreateGPOCommand_test_vector (rand : Nat → Nat) :
    ∃ U cmd, U = encodeBCD [0, 0, 0, 0] (rand 0 % 2 ^ 32) ∧ U.length = 4 ∧
      cmd = ({ Cla := 0x80, Ins := 0xa8, P1 := 0, P2 := 0,
               Data := [0x83, 0x12, 0xB6, 0x20, 0xC0, 0x00, 0x00, 0x00, 0x00, 0x00, 0x10,
                        0x00] ++ U ++ [0x09, 0x33, 0x01, 0x12] } : APDU) ∧
      CreateGPOCommand (some testPDOL) testConfig rand = some (.ok cmd) ∧
      cmd.Data.length = 20 ∧
      cmd.Bytes = [0x80, 0xa8, 0x00, 0x00, 0x14] ++ cmd.Data ++ [0x00] ∧
      cmd.String = "80a80000148312b620c000000000001000" ++ EncodeToString U ++ "0933011200" ∧
      List.IsInfix "80a80000148312b620c000000000001000".toList cmd.String.toList ∧
      List.IsInfix "0933011200".toList cmd.String.toList := by
  have hU : (encodeBCD [0, 0, 0, 0] (rand 0 % 2 ^ 32)).length = 4 := by
    rw [encodeBCD_length]; rfl
  refine ⟨_, _, rfl, hU, rfl, gpo_example rand, ?_, ?_, gpo_example_string _ hU, ?_, ?_⟩
  · simp [encodeBCD_length]
  · simp [APDU.Bytes, encodeBCD_length]
  · rw [gpo_example_string _ hU]
    exact ⟨[], (EncodeToString (encodeBCD [0, 0, 0, 0] (rand 0 % 2 ^ 32))
      ++ "0933011200").toList, by simp [String.toList]⟩
  · rw [gpo_example_string _ hU]
    exact ⟨("80a80000148312b620c000000000001000"
      ++ EncodeToString (encodeBCD [0, 0, 0, 0] (rand 0 % 2 ^ 32))).toList, [],
      by simp [String.toList]⟩

/-- C2, the failing input. A PDOL that requests two bytes of the terminal
transaction qualifiers (`9F66 02`) makes `CreateGPOCommand` panic in
`binary.BigEndian.PutUint32`, whatever the configuration and the random source: no
command is returned. -/
theorem CreateGPOCommand_short_TTQ_panics (cfg : TerminalConfig) (rand : Nat → Nat) :
    CreateGPOCommand (some { T := 0x9f38, V := [0x9f, 0x66, 0x02] }) cfg rand
      = some (.crash "index out of range [3]") := by
  unfold CreateGPOCommand
  simp only [List.length_cons, List.length_nil]
  rw [gpoLoop_crash cfg rand _ [0x9f, 0x66, 0x02] [0x02] [] [] 0x9f66 2 2 1 0 0
    "index out of range [3]" (by rfl) (by decide) (by rfl) (by rfl)]

/-- A length byte below 128 is in the short form. -/
theorem and_128_of_lt : ∀ l, l < 128 → l &&& 0x80 = 0 := by decide

theorem ReadLen_short (l : Nat) (hl : l < 128) (r : List Nat) :
    ReadLen (l :: r) = (l, 1, none, r) := by
  simp [ReadLen, and_128_of_lt l hl]

/-- A PDOL with the single entry `tag`, `n` whose tag is written in two bytes. -/
theorem gpo_single (cfg : TerminalConfig) (rand : Nat → Nat) (t0 t1 n calls1 : Nat)
    (d : List Nat) (hn : n < 128)
    (ht : ReadTag [t0, t1, n] = (t0 * 256 + t1, 2, none, [n]))
    (hf : fillEntry cfg rand (t0 * 256 + t1) (List.replicate n 0) 0 = (.ok d, calls1)) :
    CreateGPOCommand (some { T := 0x9f38, V := [t0, t1, n] }) cfg rand
      = some (.ok { Cla := 0x80, Ins := 0xa8,
                    Data := TagValue.Bytes { T := TagCommandTemplate, V := d } }) := by
  unfold CreateGPOCommand
  simp only [List.length_cons, List.length_nil]
  rw [gpoLoop_step cfg rand _ _ _ _ [] d _ _ _ _ 0 calls1 ht (by decide)
    (ReadLen_short n hn []) hf, gpoLoop_done]
  simp

/-- C4, the counterexample. The currency code 933 exceeds `100 ^ 1 - 1`, yet
`encodeBCD` on a one-byte buffer reports nothing and leaves `0x33`, the digits of
`933 % 100`, and `CreateGPOCommand` returns a command carrying that byte, with no
error. -/
theorem encodeBCD_no_error_on_overflow :
    100 ^ 1 - 1 < 933 ∧ encodeBCD [0] 933 = [0x33] ∧
    CreateGPOCommand (some { T := 0x9f38, V := [0x5f, 0x2a, 0x01] })
        { TerminalTransactionQualifiers := 0, TransactionCurrencyCode := 933,
          TerminalCountryCode := 0 } (fun _ => 0)
      = some (.ok { Cla := 0x80, Ins := 0xa8, Data := [0x83, 0x01, 0x33] }) := by
  refine ⟨by decide, by decide, ?_⟩
  rw [gpo_single _ _ 0x5f 0x2a 1 0 [0x33] (by decide) (by rfl) (by rfl)]
  rfl

/-- C4, as amended. For every width `n` and every `x > 100 ^ n - 1` (a `uint64`),
`encodeBCD` has no error result: on a zero-filled buffer of `n` bytes it leaves `n`
bytes of decimal digits whose BCD decoding is `x % 100 ^ n`, a value smaller than
`x`. `CreateGPOCommand` returns a command, not an error, whose data wraps these
truncated bytes when `x` is the unpredictable number, the currency code or the
country code and the PDOL requests `n` bytes for it. -/
theorem encodeBCD_truncates (n x : Nat) (hx : 100 ^ n - 1 < x) (_h64 : x < 2 ^ 64) :
    decodeBCD (encodeBCD (List.replicate n 0) x) = x % 100 ^ n ∧
    x % 100 ^ n < x ∧
    (encodeBCD (List.replicate n 0) x).length = n ∧
    (∀ b ∈ encodeBCD (List.replicate n 0) x, b >>> 4 ≤ 9 ∧ b &&& 0x0f ≤ 9) ∧
    (∀ (cfg : TerminalConfig) (rand : Nat → Nat), n < 128 → rand 0 % 2 ^ 32 = x →
      CreateGPOCommand (some { T := 0x9f38, V := [0x9f, 0x37, n] }) cfg rand
        = some (.ok { Cla := 0x80, Ins := 0xa8,
                      Data := TagValue.Bytes { T := TagCommandTemplate,
                                               V := encodeBCD (List.replicate n 0) x } })) ∧
    (∀ (cfg : TerminalConfig) (rand : Nat → Nat), n < 128 →
      cfg.TransactionCurrencyCode % 2 ^ 16 = x →
      CreateGPOCommand (some { T := 0x9f38, V := [0x5f, 0x2a, n] }) cfg rand
        = some (.ok { Cla := 0x80, Ins := 0xa8,
                      Data := TagValue.Bytes { T := TagCommandTemplate,
                                               V := encodeBCD (List.replicate n 0) x } })) ∧
    (∀ (cfg : TerminalConfig) (rand : Nat → Nat), n < 128 →
      cfg.TerminalCountryCode % 2 ^ 16 = x →
      CreateGPOCommand (some { T := 0x9f38, V := [0x9f, 0x1a, n] }) cfg rand
        = some (.ok { Cla := 0x80, Ins := 0xa8,
                      Data := TagValue.Bytes { T := TagCommandTemplate,
                                               V := encodeBCD (List.replicate n 0) x } })) := by
  have hpos : 0 < 100 ^ n := Nat.pow_pos (by norm_num)
  have hlt : x % 100 ^ n < 100 ^ n := Nat.mod_lt _ hpos
  refine ⟨encodeBCD_decode n x, by omega, by rw [encodeBCD_length]; simp,
    encodeBCD_digits n x, ?_, ?_, ?_⟩
  · intro cfg rand hn hr
    exact gpo_single cfg rand 0x9f 0x37 n 1 _ hn (by rfl) (by rw [← hr]; rfl)
  · intro cfg rand hn hr
    exact gpo_single cfg rand 0x5f 0x2a n 0 _ hn (by rfl) (by rw [← hr]; rfl)
  · intro cfg rand hn hr
    exact gpo_single cfg rand 0x9f 0x1a n 0 _ hn (by rfl) (by rw [← hr]; rfl)

/-- Witness of C4 as amended: the currency code 933 in a one-byte field. -/
theorem encodeBCD_truncates_witness :
    decodeBCD (encodeBCD (List.replicate 1 0) 933) = 933 % 100 ^ 1 ∧
    CreateGPOCommand (some { T := 0x9f38, V := [0x5f, 0x2a, 1] }) testConfig (fun _ => 0)
        = some (.ok { Cla := 0x80, Ins := 0xa8,
                      Data := TagValue.Bytes { T := TagCommandTemplate,
                                               V := encodeBCD (List.replicate 1 0) 933 } }) :=
  ⟨(encodeBCD_truncates 1 933 (by decide) (by decide)).1,
   (encodeBCD_truncates 1 933 (by decide) (by decide)).2.2.2.2.2.1 testConfig (fun _ => 0)
     (by decide) (by decide)⟩


theorem readTagCont_rest (r : List Nat) : ∀ (tag n t m : Nat) (r1 : List Nat),
    readTagCont r tag n = (t, m, none, r1) → r1.length < r.length := by
  induction r with
  | nil => intro tag n t m r1 h; simp [readTagCont] at h
  | cons b r ih =>
    intro tag n t m r1 h
    unfold readTagCont at h
    split at h
    · have := ih _ _ _ _ _ h
      simp only [List.length_cons]; omega
    · simp only [Prod.mk.injEq] at h
      rw [← h.2.2.2]; simp

theorem ReadTag_rest (r r1 : List Nat) (t m : Nat) (h : ReadTag r = (t, m, none, r1)) :
    r1.length < r.length := by
  cases r with
  | nil => simp [ReadTag] at h
  | cons b r =>
    simp only [ReadTag] at h
    split at h
    · have := readTagCont_rest _ _ _ _ _ _ h
      simp only [List.length_cons]; omega
    · simp only [Prod.mk.injEq] at h
      rw [← h.2.2.2]; simp

theorem ReadLen_rest (r r2 : List Nat) (l m : Nat) (h : ReadLen r = (l, m, none, r2)) :
    r2.length ≤ r.length := by
  cases r with
  | nil => simp [ReadLen] at h
  | cons b r =>
    simp only [ReadLen] at h
    split at h
    · simp only [Prod.mk.injEq] at h
      rw [← h.2.2.2]; simp
    · split at h
      · simp at h
      · simp only [Prod.mk.injEq] at h
        rw [← h.2.2.2]; simp; omega

/-- The loop of `CreateGPOCommand` ends before its fuel when the fuel exceeds the
number of bytes left in the reader. -/
theorem gpoLoop_isSome (cfg : TerminalConfig) (rand : Nat → Nat) :
    ∀ (fuel : Nat) (r : List Nat) (calls : Nat) (data : List Nat), r.length < fuel →
      (gpoLoop cfg rand fuel r calls data).isSome = true := by
  intro fuel
  induction fuel with
  | zero => intro r calls data h; omega
  | succ fuel ih =>
    intro r calls data h
    unfold gpoLoop
    rcases ht : ReadTag r with ⟨tag, n, err, r1⟩
    simp only
    split
    · rfl
    · cases err with
      | some e => rfl
      | none =>
        simp only
        have h1 := ReadTag_rest r r1 tag n ht
        rcases hl : ReadLen r1 with ⟨l, m, err2, r2⟩
        cases err2 with
        | some e => rfl
        | none =>
          simp only
          have h2 := ReadLen_rest r1 r2 l m hl
          rcases hf : fillEntry cfg rand tag (List.replicate l 0) calls with ⟨res, calls1⟩
          cases res with
          | ok d => exact ih r2 calls1 _ (by omega)
          | err e => rfl
          | crash msg => rfl

/-- `CreateGPOCommand` always ends: the fuel given to its loop is never used up. -/
theorem CreateGPOCommand_isSome (pdol : Option TagValue) (cfg : TerminalConfig)
    (rand : Nat → Nat) : (CreateGPOCommand pdol cfg rand).isSome = true := by
  unfold CreateGPOCommand
  cases pdol with
  | none => rfl
  | some tv =>
    simp only
    have h := gpoLoop_isSome cfg rand (tv.V.length + 1) tv.V 0 [] (by omega)
    rcases hg : gpoLoop cfg rand (tv.V.length + 1) tv.V 0 [] with _ | res
    · rw [hg] at h; simp at h
    · cases res <;> rfl


theorem readTagCont_valid (t : List Nat) : ∀ (rest : List Nat) (acc n : Nat),
    validTagCont t = true →
    readTagCont (t ++ rest) acc n
      = (t.foldl (fun a b => a * 256 + b) acc, n + t.length, none, rest) := by
  induction t with
  | nil => intro rest acc n h; simp [validTagCont] at h
  | cons b t ih =>
    intro rest acc n h
    cases t with
    | nil =>
      simp only [validTagCont, decide_eq_true_eq] at h
      simp [readTagCont, h]
    | cons b1 t1 =>
      simp only [validTagCont, Bool.and_eq_true, decide_eq_true_eq] at h
      have hih := ih rest (acc * 256 + b) (n + 1) h.2
      rw [List.cons_append, readTagCont, if_pos h.1, hih]
      simp only [List.foldl_cons, List.length_cons]
      congr 2
      omega

theorem ReadTag_valid (t rest : List Nat) (h : validTag t = true) :
    ReadTag (t ++ rest) = (bigEndian t, t.length, none, rest) ∧ t.length ≠ 0 := by
  cases t with
  | nil => simp [validTag] at h
  | cons b t =>
    cases t with
    | nil =>
      simp only [validTag, decide_eq_true_eq] at h
      simp [ReadTag, h, bigEndian]
    | cons b1 t1 =>
      simp only [validTag, Bool.and_eq_true, decide_eq_true_eq] at h
      have hc := readTagCont_valid (b1 :: t1) rest b 1 h.2
      rw [List.cons_append, ReadTag, if_pos h.1, hc]
      simp only [bigEndian, List.foldl_cons, List.length_cons, zero_mul, zero_add]
      refine ⟨?_, by omega⟩
      congr 2
      omega

theorem PutUint32_length (b : List Nat) (v : Nat) (h : 4 ≤ b.length) :
    ∃ d, PutUint32 b v = .ok d ∧ d.length = b.length := by
  have : ¬ b.length < 4 := by omega
  rw [PutUint32, if_neg this]
  exact ⟨_, rfl, by simp⟩

/-- The byte group of an entry has the requested length, and is zero-filled for a tag
that the switch does not know, unless the entry asks for fewer than four bytes of the
terminal transaction qualifiers. -/
theorem fillEntry_length (cfg : TerminalConfig) (rand : Nat → Nat) (tag l calls : Nat)
    (h : tag = TagTerminalTransactionQualifiers → 4 ≤ l) :
    ∃ d calls1, fillEntry cfg rand tag (List.replicate l 0) calls = (.ok d, calls1) ∧
      d.length = l ∧
      (tag ≠ TagTerminalTransactionQualifiers → tag ≠ TagAmountAuthorized →
        tag ≠ TagUnpredictableNumber → tag ≠ TagTransactionCurrencyCode →
        tag ≠ TagTerminalCountryCode → d = List.replicate l 0) := by
  unfold fillEntry
  split_ifs with h1 h2 h3 h4 h5
  · obtain ⟨d, hd, hlen⟩ := PutUint32_length (List.replicate l 0)
      (cfg.TerminalTransactionQualifiers % 2 ^ 32) (by rw [List.length_replicate]; exact h h1)
    exact ⟨d, calls, by rw [hd], by rw [hlen, List.length_replicate],
      fun hne => absurd h1 hne⟩
  · exact ⟨_, _, rfl, by rw [encodeBCD_length, List.length_replicate],
      fun _ hne => absurd h2 hne⟩
  · exact ⟨_, _, rfl, by rw [encodeBCD_length, List.length_replicate],
      fun _ _ hne => absurd h3 hne⟩
  · exact ⟨_, _, rfl, by rw [encodeBCD_length, List.length_replicate],
      fun _ _ _ hne => absurd h4 hne⟩
  · exact ⟨_, _, rfl, by rw [encodeBCD_length, List.length_replicate],
      fun _ _ _ _ hne => absurd h5 hne⟩
  · exact ⟨_, _, rfl, List.length_replicate _ _, fun _ _ _ _ _ => rfl⟩

theorem gpoLoop_wellFormed (cfg : TerminalConfig) (rand : Nat → Nat) :
    ∀ (es : List PdolEntry) (fuel calls : Nat) (data : List Nat),
      (∀ e ∈ es, validTag e.tag = true ∧ e.len < 128 ∧
        (bigEndian e.tag = TagTerminalTransactionQualifiers → 4 ≤ e.len)) →
      es.length < fuel →
      ∃ groups, List.Forall₂ groupFor es groups ∧
        gpoLoop cfg rand fuel (pdolBytes es) calls data = some (.ok (data ++ groups.flatten)) := by
  intro es
  induction es with
  | nil =>
    intro fuel calls data _ hf
    obtain ⟨f, rfl⟩ : ∃ f, fuel = f + 1 := ⟨fuel - 1, by simp at hf; omega⟩
    exact ⟨[], List.Forall₂.nil, by simp [pdolBytes, gpoLoop_done]⟩
  | cons e es ih =>
    intro fuel calls data hwf hf
    obtain ⟨f, rfl⟩ : ∃ f, fuel = f + 1 := ⟨fuel - 1, by simp at hf; omega⟩
    obtain ⟨hv, hl, httq⟩ := hwf e (List.mem_cons_self _ _)
    obtain ⟨ht, hn⟩ := ReadTag_valid e.tag (e.len :: pdolBytes es) hv
    obtain ⟨d, calls1, hfill, hdlen, hdzero⟩ :=
      fillEntry_length cfg rand (bigEndian e.tag) e.len calls httq
    obtain ⟨groups, hg, hloop⟩ := ih f calls1 (data ++ d)
      (fun e1 he1 => hwf e1 (List.mem_cons_of_mem _ he1)) (by simp at hf; omega)
    refine ⟨d :: groups, List.Forall₂.cons ⟨hdlen, hdzero⟩ hg, ?_⟩
    rw [pdolBytes, gpoLoop_step cfg rand f _ _ _ data d _ _ _ _ calls calls1 ht hn
      (ReadLen_short e.len hl _) hfill, hloop]
    simp

theorem pdolBytes_length (es : List PdolEntry) : es.length ≤ (pdolBytes es).length := by
  induction es with
  | nil => simp [pdolBytes]
  | cons e es ih => simp only [pdolBytes, List.length_cons, List.length_append]; omega

theorem flatten_length_of_groups (es : List PdolEntry) (groups : List (List Nat))
    (h : List.Forall₂ groupFor es groups) :
    groups.flatten.length = (es.map PdolEntry.len).sum := by
  induction h with
  | nil => rfl
  | cons hg _ ih => simp [ih, hg.1]

/-- For every PDOL value that is a sequence of entries (a BER tag and a length in the
short form) in which no entry asks for fewer than four bytes of tag `0x9F66`, and for
every terminal configuration, `CreateGPOCommand` returns without error a command
whose data is the TLV with tag `0x83` of the concatenation, in PDOL order, of one
byte group per entry; each group has the requested length and is zero-filled for an
unrecognised tag, so the length of the wrapped value is the sum of the requested
lengths. -/
theorem CreateGPOCommand_wellFormed (cfg : TerminalConfig) (rand : Nat → Nat)
    (es : List PdolEntry)
    (hwf : ∀ e ∈ es, validTag e.tag = true ∧ e.len < 128 ∧
      (bigEndian e.tag = TagTerminalTransactionQualifiers → 4 ≤ e.len)) :
    ∃ groups, List.Forall₂ groupFor es groups ∧
      groups.flatten.length = (es.map PdolEntry.len).sum ∧
      CreateGPOCommand (some { T := TagProcessingOptionsDataObjectList, V := pdolBytes es })
          cfg rand
        = some (.ok { Cla := 0x80, Ins := 0xa8,
                      Data := TagValue.Bytes { T := TagCommandTemplate,
                                               V := groups.flatten } }) := by
  obtain ⟨groups, hg, hloop⟩ := gpoLoop_wellFormed cfg rand es ((pdolBytes es).length + 1) 0 []
    hwf (by have := pdolBytes_length es; omega)
  refine ⟨groups, hg, flatten_length_of_groups es groups hg, ?_⟩
  simp [CreateGPOCommand, hloop]

/-! ## ParseRecord -/

theorem ParseRecord_no_pan (Find : Nat → List Nat → Except GoError TagValue)
    (record : List Nat) (e : GoError)
    (h : Find TagApplicationPrimaryAccountNumber record = .error e) :
    ParseRecord Find record = .err e := by
  simp [ParseRecord, h]

theorem ParseRecord_no_expiry (Find : Nat → List Nat → Except GoError TagValue)
    (record : List Nat) (pan : TagValue) (e : GoError)
    (hp : Find TagApplicationPrimaryAccountNumber record = .ok pan)
    (he : Find TagApplicationExpirationDate record = .error e) :
    ParseRecord Find record = .err (.wrap e "failed to find expiration date") := by
  simp [ParseRecord, hp, he]

set_option maxRecDepth 100000 in
theorem bcd_uint8_exact : ∀ v, v < 256 →
    ((((v >>> 4) * 10) % 256) + (v &&& 0xf)) % 256 = (v >>> 4) * 10 + (v &&& 0x0F) ∧
    (v >>> 4) * 10 + (v &&& 0x0F) < 256 := by
  decide

theorem hexDigit_mem (n : Nat) : hexDigit n ∈ "0123456789abcdef".toList := by
  unfold hexDigit
  by_cases h : n < 16
  · interval_cases n <;> decide
  · rw [List.getD_eq_default _ _ (by simpa using Nat.le_of_not_lt h)]
    decide

theorem EncodeToString_length (p : List Nat) : (EncodeToString p).length = 2 * p.length := by
  unfold EncodeToString
  induction p with
  | nil => rfl
  | cons x xs ih =>
    simp only [String.length, List.foldr_cons, List.length_cons] at ih ⊢
    omega

theorem EncodeToString_chars (p : List Nat) :
    ∀ c ∈ (EncodeToString p).toList, c ∈ "0123456789abcdef".toList := by
  unfold EncodeToString
  induction p with
  | nil => intro c hc; simp [String.toList] at hc
  | cons x xs ih =>
    intro c hc
    have hc2 : c = hexDigit (x >>> 4) ∨ c = hexDigit (x &&& 0x0f) ∨
        c ∈ (String.mk (xs.foldr
          (fun v acc => hexDigit (v >>> 4) :: hexDigit (v &&& 0x0f) :: acc) [])).toList := by
      simpa [String.toList] using hc
    rcases hc2 with h | h | h
    · rw [h]; exact hexDigit_mem _
    · rw [h]; exact hexDigit_mem _
    · exact ih c h

/-- C8. Field decoding: when tag `0x5A` is found with value `p` and tag `0x5F24` with
a value of at least two bytes `e0, e1, ...`, `ParseRecord` returns without error the
card whose PAN is the lowercase hexadecimal text of `p` (two characters of
`0123456789abcdef` per byte), whose year is `(e0 >> 4) * 10 + (e0 & 0x0F)` and whose
month is `(e1 >> 4) * 10 + (e1 & 0x0F)`; both values are below 256, so the `uint8`
arithmetic does not wrap. -/
theorem ParseRecord_decodes (Find : Nat → List Nat → Except GoError TagValue)
    (record : List Nat) (pan e : TagValue) (e0 e1 : Nat) (rest : List Nat)
    (hp : Find TagApplicationPrimaryAccountNumber record = .ok pan)
    (he : Find TagApplicationExpirationDate record = .ok e)
    (hV : e.V = e0 :: e1 :: rest) (h0 : e0 < 256) (h1 : e1 < 256) :
    ParseRecord Find record
      = .ok { Typ := [], PAN := EncodeToString pan.V
              ExpYear := (e0 >>> 4) * 10 + (e0 &&& 0x0F)
              ExpMonth := (e1 >>> 4) * 10 + (e1 &&& 0x0F) } ∧
    (e0 >>> 4) * 10 + (e0 &&& 0x0F) < 256 ∧
    (e1 >>> 4) * 10 + (e1 &&& 0x0F) < 256 ∧
    (EncodeToString pan.V).length = 2 * pan.V.length ∧
    ∀ c ∈ (EncodeToString pan.V).toList, c ∈ "0123456789abcdef".toList := by
  refine ⟨?_, (bcd_uint8_exact e0 h0).2, (bcd_uint8_exact e1 h1).2,
    EncodeToString_length _, EncodeToString_chars _⟩
  simp only [ParseRecord, hp, he, hV]
  rw [(bcd_uint8_exact e0 h0).1, (bcd_uint8_exact e1 h1).1]

/-- Witness of C8: the expiry bytes `23 01` decode to year 23 and month 1. -/
theorem ParseRecord_decodes_witness :
    ParseRecord specFind [0x5a, 0x02, 0x12, 0x34, 0x5f, 0x24, 0x02, 0x23, 0x01]
      = .ok { Typ := [], PAN := "1234", ExpYear := 23, ExpMonth := 1 } :=
  (ParseRecord_decodes specFind [0x5a, 0x02, 0x12, 0x34, 0x5f, 0x24, 0x02, 0x23, 0x01]
    { T := 0x5a, V := [0x12, 0x34] } { T := 0x5f24, V := [0x23, 0x01] } 0x23 0x01 []
    rfl rfl rfl (by decide) (by decide)).1

/-- C10, the failing inputs. A record with a PAN and an expiration date of one byte
makes `ParseRecord` panic at `expDate.V[1]`; with an expiration date of no byte it
panics at `expDate.V[0]`. Neither a card nor an error is returned. -/
theorem ParseRecord_short_expiry_panics :
    ParseRecord specFind [0x5a, 0x02, 0x12, 0x34, 0x5f, 0x24, 0x01, 0x23]
      = .crash "index out of range [1] with length 1" ∧
    ParseRecord specFind [0x5a, 0x02, 0x12, 0x34, 0x5f, 0x24, 0x00]
      = .crash "index out of range [0] with length 0" := by
  constructor <;> rfl


/-! ## ReadRecords -/

/-- The record loop of a group whose last record number is 255 never ends while every
READ RECORD of the file is answered without a PAN: the `uint8` counter wraps from 255
to 0 and the loop condition holds again. -/
theorem readGroup_diverges {σ : Type} (sender : apduSender σ)
    (Find : Nat → List Nat → Except GoError TagValue) (sfi : Nat)
    (hall : ∀ s rec, ∃ rx s1, sender.Send s { Ins := 0xb2, P1 := rec, P2 := sfi } = (.ok rx, s1) ∧
      Find TagApplicationPrimaryAccountNumber rx = .error .ErrNotFound) :
    ∀ (fuel : Nat) (s : σ) (sent : List APDU) (rec : Nat), rec ≤ 255 →
      readGroup sender Find sfi 255 fuel s sent rec = none := by
  intro fuel
  induction fuel with
  | zero => intro s sent rec _; rfl
  | succ fuel ih =>
    intro s sent rec hrec
    obtain ⟨rx, s1, hs, hf⟩ := hall s rec
    simp only [readGroup, hrec, if_true, hs, ParseRecord_no_pan Find rx _ hf]
    exact ih s1 _ _ (by omega)

/-- C5, the failing input. The AFL `08 01 FF 00` (one group, records 1 to 255) and a
card whose every answer succeeds and holds no tag `0x5A`: `ReadRecords` returns for no
amount of fuel, so it never reports `PAN not found`. After record 255 the `uint8`
counter is 0 again and the scan of the group starts over. -/
theorem ReadRecords_last_record_255_never_returns :
    (∀ s cmd, noPanCard.Send s cmd = (.ok recordWithoutPAN, s)) ∧
    specFind TagApplicationPrimaryAccountNumber recordWithoutPAN = .error .ErrNotFound ∧
    ∀ fuel, ReadRecords noPanCard specFind fuel () [0x08, 0x01, 0xFF, 0x00] = none := by
  refine ⟨fun _ _ => rfl, rfl, fun fuel => ?_⟩
  have h := readGroup_diverges noPanCard specFind 0x0c
    (fun s _ => ⟨recordWithoutPAN, s, rfl, rfl⟩) fuel () [] 1 (by decide)
  simp only [ReadRecords, readGroups]
  have hsfi : ((0x08 &&& 0xF8) ||| 0x04) % 256 = 0x0c := by decide
  rw [hsfi, h]

/-- C6, the failing input. The AFL `08 01 FF 00 10 01 01 00` and a card whose every
answer succeeds, whose first file holds no tag `0x5A` and whose second file answers
record 1 with a PAN and an expiration date: `ReadRecords` returns for no amount of
fuel, so the card of that record is never returned. The scan of the first group
never ends, by the wrap of the `uint8` counter at 255. -/
theorem ReadRecords_second_file_never_read :
    ParseRecord specFind recordWithPAN
      = .ok { Typ := [], PAN := "1234", ExpYear := 23, ExpMonth := 1 } ∧
    (∀ s rec, panInSecondFileCard.Send s { Ins := 0xb2, P1 := rec, P2 := 0x14 }
      = (.ok recordWithPAN, s)) ∧
    (∀ s rec, panInSecondFileCard.Send s { Ins := 0xb2, P1 := rec, P2 := 0x0c }
      = (.ok recordWithoutPAN, s)) ∧
    specFind TagApplicationPrimaryAccountNumber recordWithoutPAN = .error .ErrNotFound ∧
    ∀ fuel, ReadRecords panInSecondFileCard specFind fuel ()
      [0x08, 0x01, 0xFF, 0x00, 0x10, 0x01, 0x01, 0x00] = none := by
  refine ⟨rfl, fun _ _ => rfl, fun _ _ => rfl, rfl, fun fuel => ?_⟩
  have h := readGroup_diverges panInSecondFileCard specFind 0x0c
    (fun s _ => ⟨recordWithoutPAN, s, rfl, rfl⟩) fuel () [] 1 (by decide)
  simp only [ReadRecords, readGroups]
  have hsfi : ((0x08 &&& 0xF8) ||| 0x04) % 256 = 0x0c := by decide
  rw [hsfi, h]

theorem quietScan_append {σ : Type} (sender : apduSender σ)
    (Find : Nat → List Nat → Except GoError TagValue) (a b : List APDU) :
    ∀ (s : σ), quietScan sender Find s (a ++ b)
      = (quietScan sender Find s a).bind fun s1 => quietScan sender Find s1 b := by
  induction a with
  | nil => intro s; rfl
  | cons c cs ih =>
    intro s
    simp only [List.cons_append, quietScan]
    rcases hs : sender.Send s c with ⟨res, s1⟩
    cases res with
    | error e => rfl
    | ok rx =>
      simp only
      rcases hf : Find TagApplicationPrimaryAccountNumber rx with e | tv
      · cases e <;> simp [ih]
      · rfl

theorem recordCommands_succ (sfi rec k : Nat) :
    recordCommands sfi rec (k + 1)
      = { Ins := 0xb2, P1 := rec, P2 := sfi } :: recordCommands sfi (rec + 1) k := by
  simp [recordCommands, List.range'_succ]

/-- The record loop follows `recordCommands` while the answers hold no PAN. -/
theorem readGroup_quiet {σ : Type} (sender : apduSender σ)
    (Find : Nat → List Nat → Except GoError TagValue) (sfi lastRec fuel : Nat) :
    ∀ (k rec : Nat) (s s1 : σ) (sent : List APDU),
      quietScan sender Find s (recordCommands sfi rec k) = some s1 →
      rec + k ≤ lastRec + 1 → rec + k ≤ 255 →
      readGroup sender Find sfi lastRec (fuel + k) s sent rec
        = readGroup sender Find sfi lastRec fuel s1 (sent ++ recordCommands sfi rec k)
            (rec + k) := by
  intro k
  induction k with
  | zero =>
    intro rec s s1 sent h _ _
    simp only [recordCommands, List.range'_zero, List.map_nil, quietScan, Option.some.injEq] at h
    subst h
    simp [recordCommands]
  | succ k ih =>
    intro rec s s1 sent h hle h255
    rw [recordCommands_succ] at h ⊢
    simp only [quietScan] at h
    rcases hs : sender.Send s { Ins := 0xb2, P1 := rec, P2 := sfi } with ⟨res, s2⟩
    rw [hs] at h
    cases res with
    | error e => simp at h
    | ok rx =>
      simp only at h
      rcases hf : Find TagApplicationPrimaryAccountNumber rx with e | tv
      · rw [hf] at h
        cases e <;> simp at h
        have hrec : rec ≤ lastRec := by omega
        have hmod : (rec + 1) % 256 = rec + 1 := Nat.mod_eq_of_lt (by omega)
        rw [← Nat.add_assoc]
        simp only [readGroup, hrec, if_true, hs, ParseRecord_no_pan Find rx _ hf, hmod]
        rw [ih (rec + 1) s2 s1 _ h (by omega) (by omega)]
        simp [Nat.add_assoc, Nat.add_comm 1 k]
      · rw [hf] at h; simp at h

theorem readGroup_exit {σ : Type} (sender : apduSender σ)
    (Find : Nat → List Nat → Except GoError TagValue) (sfi lastRec fuel rec : Nat) (s : σ)
    (sent : List APDU) (h : lastRec < rec) :
    readGroup sender Find sfi lastRec (fuel + 1) s sent rec = some (.next s sent) := by
  have : ¬ rec ≤ lastRec := by omega
  simp [readGroup, this]

/-- The scan of a whole group without a PAN, for a last record number below 255. -/
theorem readGroup_whole {σ : Type} (sender : apduSender σ)
    (Find : Nat → List Nat → Except GoError TagValue) (sfi first last fuel : Nat)
    (s s1 : σ) (sent : List APDU) (hlast : last < 255) (hfuel : 256 ≤ fuel)
    (h : quietScan sender Find s (recordCommands sfi first (last + 1 - first)) = some s1) :
    readGroup sender Find sfi last fuel s sent first
      = some (.next s1 (sent ++ recordCommands sfi first (last + 1 - first))) := by
  by_cases hle : first ≤ last
  · obtain ⟨f, hf⟩ : ∃ f, fuel = (f + 1) + (last + 1 - first) := ⟨fuel - 1 - (last + 1 - first), by omega⟩
    rw [hf, readGroup_quiet sender Find sfi last (f + 1) _ first s s1 sent h (by omega) (by omega)]
    exact readGroup_exit sender Find sfi last f _ s1 _ (by omega)
  · have hk : last + 1 - first = 0 := by omega
    rw [hk] at h ⊢
    simp only [recordCommands, List.range'_zero, List.map_nil, quietScan, Option.some.injEq] at h
    subst h
    obtain ⟨f, hf⟩ : ∃ f, fuel = f + 1 := ⟨fuel - 1, by omega⟩
    rw [hf, readGroup_exit sender Find sfi last f first s sent (by omega)]
    simp [recordCommands]

/-- The outer loop follows `aflCommands` through groups without a PAN whose last
record numbers are below 255. -/
theorem readGroups_quiet {σ : Type} (sender : apduSender σ)
    (Find : Nat → List Nat → Except GoError TagValue) (fuel : Nat) (hfuel : 256 ≤ fuel)
    (rest : List Nat) :
    ∀ (n : Nat) (pre : List Nat) (s s1 : σ) (sent : List APDU), pre.length = 4 * n →
      lastBelow255 pre → quietScan sender Find s (aflCommands pre) = some s1 →
      readGroups sender Find fuel s sent (pre ++ rest)
        = readGroups sender Find fuel s1 (sent ++ aflCommands pre) rest := by
  intro n
  induction n with
  | zero =>
    intro pre s s1 sent hlen _ h
    have : pre = [] := List.length_eq_zero.mp (by omega)
    subst this
    simp only [aflCommands, quietScan, Option.some.injEq] at h
    subst h
    simp [aflCommands]
  | succ n ih =>
    intro pre s s1 sent hlen h255 h
    match pre, hlen with
    | c0 :: c1 :: c2 :: c3 :: pre1, hlen =>
      simp only [lastBelow255] at h255
      simp only [aflCommands] at h ⊢
      rw [quietScan_append] at h
      rcases hq : quietScan sender Find s
        (recordCommands (((c0 &&& 0xF8) ||| 0x04) % 256) c1 (c2 + 1 - c1)) with _ | s2
      · rw [hq] at h; simp at h
      · rw [hq] at h
        simp only [Option.bind] at h
        simp only [List.cons_append, readGroups]
        rw [readGroup_whole sender Find _ c1 c2 fuel s s2 sent h255.1 hfuel hq]
        simp only
        have hih := ih pre1 s2 s1
          (sent ++ recordCommands (((c0 &&& 0xF8) ||| 0x04) % 256) c1 (c2 + 1 - c1))
          (by simp only [List.length_cons] at hlen; omega) h255.2 h
        rw [List.append_assoc] at hih
        exact hih

theorem quietScan_total {σ : Type} (sender : apduSender σ)
    (Find : Nat → List Nat → Except GoError TagValue)
    (hall : ∀ s cmd, ∃ rx s1, sender.Send s cmd = (.ok rx, s1) ∧
      Find TagApplicationPrimaryAccountNumber rx = .error .ErrNotFound) :
    ∀ (cmds : List APDU) (s : σ), ∃ s1, quietScan sender Find s cmds = some s1 := by
  intro cmds
  induction cmds with
  | nil => intro s; exact ⟨s, rfl⟩
  | cons c cs ih =>
    intro s
    obtain ⟨rx, s1, hs, hf⟩ := hall s c
    obtain ⟨s2, h2⟩ := ih s1
    exact ⟨s2, by simp [quietScan, hs, hf, h2]⟩

/-- Record scan exhaustion when every last record number is below 255: for every AFL
whose length is a multiple of 4 and every sender whose every answer succeeds without
tag `0x5A`, `ReadRecords` returns no card and `errNoPAN` after sending exactly the
commands of `aflCommands`, READ RECORD once for each record number from first to last
of each group, in AFL order. -/
theorem ReadRecords_exhaustion {σ : Type} (sender : apduSender σ)
    (Find : Nat → List Nat → Except GoError TagValue) (fuel : Nat) (s : σ) (afl : List Nat)
    (hall : ∀ s cmd, ∃ rx s1, sender.Send s cmd = (.ok rx, s1) ∧
      Find TagApplicationPrimaryAccountNumber rx = .error .ErrNotFound)
    (h4 : afl.length % 4 = 0) (h255 : lastBelow255 afl) (hfuel : 256 ≤ fuel) :
    ∃ s1, ReadRecords sender Find fuel s afl = some (.err errNoPAN, s1, aflCommands afl) := by
  obtain ⟨s1, hq⟩ := quietScan_total sender Find hall (aflCommands afl) s
  refine ⟨s1, ?_⟩
  have h := readGroups_quiet sender Find fuel hfuel [] (afl.length / 4) afl s s1 []
    (by omega) h255 hq
  rw [List.append_nil] at h
  rw [ReadRecords, h]
  simp [readGroups]

/-- First match when every earlier group has a last record number below 255: if the
READ RECORD commands of the earlier groups and of the records `first` to `r - 1` of
the group all succeed without tag `0x5A`, and the answer for record `r` holds tag
`0x5A` and tag `0x5F24` with at least two bytes, `ReadRecords` returns without error
the card that `ParseRecord` builds from that answer, and the command for record `r`
is the last one sent: no later record and no later group is read. -/
theorem ReadRecords_first_match {σ : Type} (sender : apduSender σ)
    (Find : Nat → List Nat → Except GoError TagValue) (fuel : Nat) (s s1 s2 : σ)
    (pre post rx : List Nat) (c0 first last c3 r : Nat) (pan e : TagValue)
    (h4 : pre.length % 4 = 0) (h255 : lastBelow255 pre)
    (hr1 : first ≤ r) (hr2 : r ≤ last) (hbyte : r ≤ 255)
    (hquiet : quietScan sender Find s (aflCommands pre ++
      recordCommands (((c0 &&& 0xF8) ||| 0x04) % 256) first (r - first)) = some s1)
    (hsend : sender.Send s1 { Ins := 0xb2, P1 := r, P2 := ((c0 &&& 0xF8) ||| 0x04) % 256 }
      = (.ok rx, s2))
    (hpan : Find TagApplicationPrimaryAccountNumber rx = .ok pan)
    (hexp : Find TagApplicationExpirationDate rx = .ok e) (hV : 2 ≤ e.V.length)
    (hfuel : 256 ≤ fuel) :
    ∃ card, ParseRecord Find rx = .ok card ∧
      ReadRecords sender Find fuel s (pre ++ c0 :: first :: last :: c3 :: post)
        = some (.ok card, s2, aflCommands pre ++
            recordCommands (((c0 &&& 0xF8) ||| 0x04) % 256) first (r - first) ++
            [{ Ins := 0xb2, P1 := r, P2 := ((c0 &&& 0xF8) ||| 0x04) % 256 }]) := by
  obtain ⟨e0, e1, erest, hVe⟩ : ∃ e0 e1 erest, e.V = e0 :: e1 :: erest := by
    match hv : e.V with
    | [] => rw [hv] at hV; simp at hV
    | [_] => rw [hv] at hV; simp at hV
    | e0 :: e1 :: erest => exact ⟨e0, e1, erest, rfl⟩
  have hcard : ∃ card, ParseRecord Find rx = .ok card := by
    simp [ParseRecord, hpan, hexp, hVe]
  obtain ⟨card, hcard⟩ := hcard
  refine ⟨card, hcard, ?_⟩
  rw [quietScan_append] at hquiet
  rcases hq : quietScan sender Find s (aflCommands pre) with _ | s0
  · rw [hq] at hquiet; simp at hquiet
  · rw [hq] at hquiet
    simp only [Option.bind] at hquiet
    rw [ReadRecords, readGroups_quiet sender Find fuel hfuel _ (pre.length / 4) pre s s0 []
      (by omega) h255 hq]
    obtain ⟨f, hf⟩ : ∃ f, fuel = (f + 1) + (r - first) := ⟨fuel - 1 - (r - first), by omega⟩
    simp only [readGroups, List.nil_append]
    rw [hf, readGroup_quiet sender Find _ last (f + 1) (r - first) first s0 s1 _ hquiet
      (by omega) (by omega)]
    have hrr : first + (r - first) = r := by omega
    rw [hrr]
    simp only [readGroup, hr2, if_true, hsend, hcard]

/-- A run of the record loop that ends keeps its outcome with more fuel, and commands
sent before it stay in front of its commands. -/
theorem readGroup_mono {σ : Type} (sender : apduSender σ)
    (Find : Nat → List Nat → Except GoError TagValue) (sfi lastRec : Nat) :
    ∀ (F : Nat) (s : σ) (tr0 : List APDU) (rec : Nat) (flow : Flow σ),
      readGroup sender Find sfi lastRec F s tr0 rec = some flow →
      ∀ (F1 : Nat) (sent0 : List APDU), F ≤ F1 →
        readGroup sender Find sfi lastRec F1 s (sent0 ++ tr0) rec
          = some (match flow with
                  | .next s1 tr => .next s1 (sent0 ++ tr)
                  | .ret r s1 tr => .ret r s1 (sent0 ++ tr)) := by
  intro F
  induction F with
  | zero => intro s tr0 rec flow h; simp [readGroup] at h
  | succ F ih =>
    intro s tr0 rec flow h F1 sent0 hF
    obtain ⟨f1, rfl⟩ : ∃ f1, F1 = f1 + 1 := ⟨F1 - 1, by omega⟩
    simp only [readGroup] at h ⊢
    by_cases hle : rec ≤ lastRec
    · simp only [hle, if_true] at h ⊢
      rcases hs : sender.Send s { Ins := 0xb2, P1 := rec, P2 := sfi } with ⟨res, s1⟩
      rw [hs] at h
      cases res with
      | error e =>
        simp only [Option.some.injEq] at h
        subst h
        simp
      | ok rx =>
        simp only at h ⊢
        rcases hp : ParseRecord Find rx with card | e | m
        · rw [hp] at h
          simp only [Option.some.injEq] at h
          subst h
          simp
        · rw [hp] at h
          simp only at h ⊢
          by_cases he : e = .ErrNotFound
          · simp only [he, if_true] at h ⊢
            have := ih s1 _ _ flow h f1 sent0 (by omega)
            rw [← List.append_assoc] at this
            exact this
          · simp only [he, if_false, Option.some.injEq] at h ⊢
            subst h
            simp
        · rw [hp] at h
          simp only [Option.some.injEq] at h
          subst h
          simp
    · simp only [hle, if_false, Option.some.injEq] at h ⊢
      subst h
      rfl

/-- A run of the group loop that ends keeps its outcome with more fuel, and commands
sent before it stay in front of its commands. -/
theorem readGroups_mono {σ : Type} (sender : apduSender σ)
    (Find : Nat → List Nat → Except GoError TagValue) (F F1 : Nat) (hF : F ≤ F1)
    (sent0 : List APDU) :
    ∀ (n : Nat) (afl : List Nat) (s s1 : σ) (tr0 tr : List APDU) (res : Res Card),
      afl.length ≤ n →
      readGroups sender Find F s tr0 afl = some (res, s1, tr) →
      readGroups sender Find F1 s (sent0 ++ tr0) afl = some (res, s1, sent0 ++ tr) := by
  intro n
  induction n with
  | zero =>
    intro afl s s1 tr0 tr res hlen h
    have : afl = [] := List.length_eq_zero.mp (by omega)
    subst this
    simp only [readGroups, Option.some.injEq, Prod.mk.injEq] at h ⊢
    obtain ⟨h1, h2, h3⟩ := h
    subst h1 h2 h3
    simp
  | succ n ih =>
    intro afl s s1 tr0 tr res hlen h
    match afl, hlen with
    | c0 :: c1 :: c2 :: c3 :: rest, hlen =>
      simp only [readGroups] at h ⊢
      rcases hg : readGroup sender Find (((c0 &&& 0xF8) ||| 0x04) % 256) c2 F s tr0 c1
        with _ | flow
      · rw [hg] at h; simp at h
      · rw [hg] at h
        rw [readGroup_mono sender Find _ c2 F s tr0 c1 flow hg F1 sent0 hF]
        cases flow with
        | next s2 tr2 =>
          simp only at h ⊢
          exact ih rest s2 s1 tr2 tr res (by simp only [List.length_cons] at hlen; omega) h
        | ret r s2 tr2 =>
          simp only [Option.some.injEq, Prod.mk.injEq] at h ⊢
          obtain ⟨h1, h2, h3⟩ := h
          subst h1 h2 h3
          simp
    | [], _ | [_], _ | [_, _], _ | [_, _, _], _ =>
      simp only [readGroups, Option.some.injEq, Prod.mk.injEq] at h ⊢
      obtain ⟨h1, h2, h3⟩ := h
      subst h1 h2 h3
      simp

/-- C7. A PAN without an expiration date is fatal, a missing PAN is not, for the record
`r` at any place of the scan: any group `c0 first last c3` of the AFL, after the
groups `pre` (left by the scan, their last record numbers being below 255) and after
the records `first` to `r - 1`, all answered without tag `0x5A`. Let `rx` be the answer
to READ RECORD `r`. If tag `0x5A` is found in `rx` and the search for tag `0x5F24` fails
with `e`, `ParseRecord` returns no card and the wrapped error, which is not the
not-found sentinel, and `ReadRecords` returns that failure, no card, with the command
for record `r` the last one sent. If the search for tag `0x5A` fails with the not-found
sentinel, `ParseRecord` returns exactly the sentinel and `ReadRecords` goes on with
the next record number: whatever the scan resumed at record `r + 1` (as a `uint8`) of
the group returns, `ReadRecords` returns, after the commands up to record `r`. -/
theorem ReadRecords_pan_without_expiry {σ : Type} (sender : apduSender σ)
    (Find : Nat → List Nat → Except GoError TagValue) (fuel : Nat) (s s1 s2 : σ)
    (pre post rx : List Nat) (c0 first last c3 r : Nat)
    (h4 : pre.length % 4 = 0) (h255 : lastBelow255 pre)
    (hr1 : first ≤ r) (hr2 : r ≤ last) (hbyte : r ≤ 255)
    (hquiet : quietScan sender Find s (aflCommands pre ++
      recordCommands (((c0 &&& 0xF8) ||| 0x04) % 256) first (r - first)) = some s1)
    (hsend : sender.Send s1 { Ins := 0xb2, P1 := r, P2 := ((c0 &&& 0xF8) ||| 0x04) % 256 }
      = (.ok rx, s2))
    (hfuel : 256 ≤ fuel) :
    (∀ pan e, Find TagApplicationPrimaryAccountNumber rx = .ok pan →
      Find TagApplicationExpirationDate rx = .error e →
      ParseRecord Find rx = .err (.wrap e "failed to find expiration date") ∧
      GoError.wrap e "failed to find expiration date" ≠ GoError.ErrNotFound ∧
      ReadRecords sender Find fuel s (pre ++ c0 :: first :: last :: c3 :: post)
        = some (.err (.wrap (.wrap e "failed to find expiration date")
            "failed to parse record"), s2,
            aflCommands pre ++
            recordCommands (((c0 &&& 0xF8) ||| 0x04) % 256) first (r - first) ++
            [{ Ins := 0xb2, P1 := r, P2 := ((c0 &&& 0xF8) ||| 0x04) % 256 }])) ∧
    (Find TagApplicationPrimaryAccountNumber rx = .error .ErrNotFound →
      ParseRecord Find rx = .err .ErrNotFound ∧
      ∀ (f : Nat) (res : Res Card) (s3 : σ) (sent : List APDU),
        ReadRecords sender Find f s2 (c0 :: ((r + 1) % 256) :: last :: c3 :: post)
          = some (res, s3, sent) →
        ReadRecords sender Find (f + 256) s (pre ++ c0 :: first :: last :: c3 :: post)
          = some (res, s3, aflCommands pre ++
              recordCommands (((c0 &&& 0xF8) ||| 0x04) % 256) first (r - first) ++
              [{ Ins := 0xb2, P1 := r, P2 := ((c0 &&& 0xF8) ||| 0x04) % 256 }] ++ sent)) := by
  rw [quietScan_append] at hquiet
  rcases hq : quietScan sender Find s (aflCommands pre) with _ | s0
  · rw [hq] at hquiet; simp at hquiet
  rw [hq] at hquiet
  simp only [Option.bind] at hquiet
  have hrr : first + (r - first) = r := by omega
  constructor
  · intro pan e hp he
    have hpr := ParseRecord_no_expiry Find rx pan e hp he
    refine ⟨hpr, by simp, ?_⟩
    rw [ReadRecords, readGroups_quiet sender Find fuel hfuel _ (pre.length / 4) pre s s0 []
      (by omega) h255 hq]
    obtain ⟨g, hg⟩ : ∃ g, fuel = (g + 1) + (r - first) := ⟨fuel - 1 - (r - first), by omega⟩
    simp only [readGroups, List.nil_append]
    rw [hg, readGroup_quiet sender Find _ last (g + 1) (r - first) first s0 s1 _ hquiet
      (by omega) (by omega), hrr]
    simp only [readGroup, hr2, if_true, hsend, hpr]
    simp
  · intro hnf
    have hpr := ParseRecord_no_pan Find rx _ hnf
    refine ⟨hpr, ?_⟩
    intro f res s3 sent hR
    rw [ReadRecords, readGroups_quiet sender Find (f + 256) (by omega) _ (pre.length / 4) pre
      s s0 [] (by omega) h255 hq]
    obtain ⟨g, hg⟩ : ∃ g, f + 256 = (g + 1) + (r - first) :=
      ⟨f + 256 - 1 - (r - first), by omega⟩
    simp only [readGroups, List.nil_append]
    rw [hg, readGroup_quiet sender Find _ last (g + 1) (r - first) first s0 s1 _ hquiet
      (by omega) (by omega), hrr]
    simp only [readGroup, hr2, if_true, hsend, hpr]
    simp only [ReadRecords, readGroups] at hR
    rcases hgr : readGroup sender Find (((c0 &&& 0xF8) ||| 0x04) % 256) last f s2 []
      ((r + 1) % 256) with _ | flow
    · rw [hgr] at hR; simp at hR
    · rw [hgr] at hR
      have hm := readGroup_mono sender Find _ last f s2 [] ((r + 1) % 256) flow hgr g
        (aflCommands pre ++
          recordCommands (((c0 &&& 0xF8) ||| 0x04) % 256) first (r - first) ++
          [{ Ins := 0xb2, P1 := r, P2 := ((c0 &&& 0xF8) ||| 0x04) % 256 }]) (by omega)
      rw [List.append_nil] at hm
      rw [hm]
      cases flow with
      | next s4 tr4 =>
        simp only at hR ⊢
        rw [← hg]
        have := readGroups_mono sender Find f (f + 256) (by omega)
          (aflCommands pre ++
            recordCommands (((c0 &&& 0xF8) ||| 0x04) % 256) first (r - first) ++
            [{ Ins := 0xb2, P1 := r, P2 := ((c0 &&& 0xF8) ||| 0x04) % 256 }])
          post.length post s4 s3 tr4 sent res (Nat.le_refl _) hR
        exact this
      | ret r4 s4 tr4 =>
        simp only [Option.some.injEq, Prod.mk.injEq] at hR ⊢
        obtain ⟨h1, h2, h3⟩ := hR
        subst h1 h2 h3
        simp

/-- Witness of C7: a card whose record 1 holds no PAN and whose record 2 holds a PAN
and no expiration date. The scan fails at record 2 after two commands (first part, at
`r = 2`), which is also what going on after record 1 gives (second part, at
`r = 1`). -/
theorem ReadRecords_pan_without_expiry_witness :
    ReadRecords panOnlyRecordTwoCard specFind 256 ()
        [0x08, 0x01, 0x03, 0x00, 0x10, 0x01, 0x01, 0x00]
      = some (.err (.wrap (.wrap .ErrNotFound "failed to find expiration date")
          "failed to parse record"), (),
          [{ Ins := 0xb2, P1 := 0x01, P2 := 0x0c }, { Ins := 0xb2, P1 := 0x02, P2 := 0x0c }]) ∧
    ReadRecords panOnlyRecordTwoCard specFind (1 + 256) ()
        [0x08, 0x01, 0x03, 0x00, 0x10, 0x01, 0x01, 0x00]
      = some (.err (.wrap (.wrap .ErrNotFound "failed to find expiration date")
          "failed to parse record"), (),
          [{ Ins := 0xb2, P1 := 0x01, P2 := 0x0c }, { Ins := 0xb2, P1 := 0x02, P2 := 0x0c }]) :=
  ⟨((ReadRecords_pan_without_expiry panOnlyRecordTwoCard specFind 256 () () () [] 
      [0x10, 0x01, 0x01, 0x00] [0x5a, 0x02, 0x12, 0x34] 0x08 0x01 0x03 0x00 0x02
      rfl trivial (by decide) (by decide) (by decide) rfl rfl (by decide)).1
      { T := 0x5a, V := [0x12, 0x34] } .ErrNotFound rfl rfl).2.2,
   ((ReadRecords_pan_without_expiry panOnlyRecordTwoCard specFind 256 () () () []
      [0x10, 0x01, 0x01, 0x00] recordWithoutPAN 0x08 0x01 0x03 0x00 0x01
      rfl trivial (by decide) (by decide) (by decide) rfl rfl (by decide)).2 rfl).2
      1 _ () [{ Ins := 0xb2, P1 := 0x02, P2 := 0x0c }] rfl⟩

/-! ## ProcessTarget -/

/-- C9. AFL validation: when the exchange for the application list succeeds with tag
`0x4F`, the exchange for the application with tag `0x50`, the GPO command is built
and its exchange succeeds with tag `0x94`, and the length of the value of tag `0x94`
is not a multiple of 4, `ProcessTarget` returns no card and the error
`invalid AFL length`, having sent these three commands and no READ RECORD. -/
theorem ProcessTarget_invalid_AFL_length {σ : Type} (sender : apduSender σ)
    (Find : Nat → List Nat → Except GoError TagValue) (Select : List Nat → APDU)
    (rand : Nat → Nat) (fuel : Nat) (termConfig : TerminalConfig) (s0 s1 s2 s3 : σ)
    (rx1 rx2 rx3 : List Nat) (aid label afl : TagValue) (pdol : Option TagValue)
    (apduGPO : APDU)
    (hsend1 : sender.Send s0 (apduGetApplicationList Select) = (.ok rx1, s1))
    (haid : Find TagApplicationID rx1 = .ok aid)
    (hsend2 : sender.Send s1 (Select aid.V) = (.ok rx2, s2))
    (hlabel : Find TagApplicationLabel rx2 = .ok label)
    (hpdol : (∃ p, Find TagProcessingOptionsDataObjectList rx2 = .ok p ∧ pdol = some p) ∨
      (Find TagProcessingOptionsDataObjectList rx2 = .error .ErrNotFound ∧ pdol = none))
    (hgpo : CreateGPOCommand pdol termConfig rand = some (.ok apduGPO))
    (hsend3 : sender.Send s2 apduGPO = (.ok rx3, s3))
    (hafl : Find TagApplicationFileLocator rx3 = .ok afl)
    (hlen : afl.V.length % 4 ≠ 0) :
    ProcessTarget sender Find Select rand fuel termConfig s0
      = some (.err (.errorf "invalid AFL length"), s3,
          [apduGetApplicationList Select, Select aid.V, apduGPO]) := by
  have hp : pdolOf (Find TagProcessingOptionsDataObjectList rx2) = .ok pdol := by
    rcases hpdol with ⟨p, h, rfl⟩ | ⟨h, rfl⟩ <;> simp [pdolOf, h]
  simp only [ProcessTarget, hsend1, haid, hsend2, hlabel, hp, hgpo, hsend3, hafl]
  simp [hlen]

/-- Witness of C9: a card without PDOL whose AFL has three bytes. -/
theorem ProcessTarget_invalid_AFL_length_witness :
    ProcessTarget shortAflCard specFind specSelect (fun _ => 0) 0 testConfig 0
      = some (.err (.errorf "invalid AFL length"), 3,
          [apduGetApplicationList specSelect, specSelect [0xA0],
           { Cla := 0x80, Ins := 0xa8, Data := [0x83, 0x00] }]) :=
  ProcessTarget_invalid_AFL_length shortAflCard specFind specSelect (fun _ => 0) 0 testConfig
    0 1 2 3 [0x4F, 0x01, 0xA0] [0x50, 0x01, 0x41] [0x94, 0x03, 0x08, 0x01, 0x01]
    { T := 0x4F, V := [0xA0] } { T := 0x50, V := [0x41] }
    { T := 0x94, V := [0x08, 0x01, 0x01] } none
    { Cla := 0x80, Ins := 0xa8, Data := [0x83, 0x00] }
    rfl rfl rfl rfl (Or.inr ⟨rfl, rfl⟩) rfl rfl rfl (by decide)


end Emv
